import Mathlib

/-!
The context-ownership guard of gl-multithread-makecurrent (`src/main.cpp`).

A shallow embedding of `checkGLErrors`, `GLContextLock`, `createContext`,
`initialize` and `main`.  Every operation returns the list of observable
events it performs together with the new program state, so that statements
about call order are statements about lists of events.
-/

namespace GLMakeCurrent

/-- An OpenGL enumerant (`GLenum`). -/
abbrev GLenum := Nat

/-- A raw pointer (`SDL_Window *`, `SDL_GLContext`); `0` is `nullptr`. -/
abbrev Ptr := Nat

/-- The identity of a running thread. -/
abbrev ThreadId := Nat

/-- Modelled from the spec: the error kinds of section 4.2; `glad/gl.h` is not
under `src/`, the numeric values are those of the OpenGL registry. -/
def GL_NO_ERROR : GLenum := 0

/-- Modelled from the spec: the kind "invalid enum" (`glad/gl.h` is not under `src/`). -/
def GL_INVALID_ENUM : GLenum := 0x0500

/-- Modelled from the spec: the kind "invalid value" (`glad/gl.h` is not under `src/`). -/
def GL_INVALID_VALUE : GLenum := 0x0501

/-- Modelled from the spec: the kind "invalid operation" (`glad/gl.h` is not under `src/`). -/
def GL_INVALID_OPERATION : GLenum := 0x0502

/-- Modelled from the spec: the kind "out of memory" (`glad/gl.h` is not under `src/`). -/
def GL_OUT_OF_MEMORY : GLenum := 0x0505

/-- Modelled from the spec: the kind "invalid framebuffer operation"
(`glad/gl.h` is not under `src/`). -/
def GL_INVALID_FRAMEBUFFER_OPERATION : GLenum := 0x0506

/-- The event type `SDL_QUIT` of `SDL2/SDL.h`. -/
def SDL_QUIT : Nat := 0x100

/-- The struct `GLContext`.  The `std::mutex` is `none` when unlocked and
`some t` when locked by thread `t`. -/
structure GLContext where
  window : Ptr
  context : Ptr
  mutex : Option ThreadId
  deriving DecidableEq, Repr

/-- Observable events, each tagged with the thread that performs it. -/
inductive Event where
  /-- The call `mutex.lock()` has returned on thread `t`. -/
  | lock (t : ThreadId)
  /-- The call `mutex.unlock()`. -/
  | unlock (t : ThreadId)
  /-- The call `SDL_GL_MakeCurrent(window, context)`. -/
  | makeCurrent (t : ThreadId) (window context : Ptr)
  /-- One `glGetError()` query and the code it returned. -/
  | getError (t : ThreadId) (result : GLenum)
  /-- The line `std::cout << string << std::endl` of `checkGLErrors`. -/
  | cout (line : String)
  /-- The `MakeCurrent(...); Thread ID: ...` line of the constructor. -/
  | coutMakeCurrent (window context : Ptr) (id : ThreadId)
  /-- Any other OpenGL entry point (`glGenBuffers`, `glDrawArrays`, ...). -/
  | gl (t : ThreadId) (name : String)
  /-- The call `SDL_GL_SwapWindow(window)`. -/
  | swapWindow (t : ThreadId) (window : Ptr)
  /-- One `SDL_PollEvent` call; `none` when it returned 0. -/
  | pollEvent (t : ThreadId) (ty : Option Nat)
  /-- Any other library call (`SDL_Init`, `gladLoadGL`, ...). -/
  | call (t : ThreadId) (name : String)
  /-- Construction of `std::thread`: `child` starts running. -/
  | spawn (parent child : ThreadId)
  /-- The call `thread.join()` has returned. -/
  | join (parent child : ThreadId)
  deriving DecidableEq, Repr

/-- The program state the guard reads and writes.
* `glContext`: the one shared `GLContext` object;
* `errorQueue`: the device's pending error codes, oldest first;
* `lastThreadID`: the static `GLContextLock::lastThreadID`; `none` is the
  default-constructed `std::thread::id`, equal to no running thread;
* `device`: what the device will flag on the coming OpenGL calls, one list
  of codes per call (nothing once the list is used up). -/
structure World where
  glContext : GLContext
  errorQueue : List GLenum
  lastThreadID : Option ThreadId
  device : List (List GLenum)
  deriving DecidableEq, Repr

/-- The call `glGetError()` over a FIFO queue of pending codes: pops the oldest
code, and returns `GL_NO_ERROR` when the queue is empty. -/
def glGetError (w : World) : GLenum × World :=
  match w.errorQueue with
  | [] => (GL_NO_ERROR, w)
  | c :: rest => (c, { w with errorQueue := rest })

/-- The `switch (error)` of `checkGLErrors`: the string to print, or `none`
for the `default: continue;` branch. -/
def errorString (error : GLenum) : Option String :=
  if error = GL_NO_ERROR then some "GL_NO_ERROR"
  else if error = GL_INVALID_ENUM then some "GL_INVALID_ENUM"
  else if error = GL_INVALID_VALUE then some "GL_INVALID_VALUE"
  else if error = GL_INVALID_OPERATION then some "GL_INVALID_OPERATION"
  else if error = GL_INVALID_FRAMEBUFFER_OPERATION then
    some "GL_INVALID_FRAMEBUFFER_OPERATION"
  else if error = GL_OUT_OF_MEMORY then some "GL_OUT_OF_MEMORY"
  else none

/-- The function `checkGLErrors`, run on thread `t`:
`while (error = glGetError(), error != GL_NO_ERROR) { switch ...; cout << string }`.
A `continue` goes back to the loop condition, that is to the next query. -/
def checkGLErrors (t : ThreadId) (w : World) : List Event × World :=
  match h : glGetError w with
  | (error, w1) =>
    if hne : error ≠ GL_NO_ERROR then
      match errorString error with
      | some string =>
        let r := checkGLErrors t w1
        (Event.getError t error :: Event.cout string :: r.1, r.2)
      | none =>
        let r := checkGLErrors t w1
        (Event.getError t error :: r.1, r.2)
    else
      ([Event.getError t error], w1)
termination_by w.errorQueue.length
decreasing_by
  all_goals simp_wf
  all_goals
    unfold glGetError at h
    cases hq : w.errorQueue with
    | nil =>
      rw [hq] at h
      simp only [Prod.mk.injEq] at h
      exact absurd h.1.symm hne
    | cons c rest =>
      rw [hq] at h
      simp only [Prod.mk.injEq] at h
      rw [← h.2]
      simp

/-- The call `mContext->mutex.lock()` on thread `t`: it returns only when the
mutex is free; `none` stands for a caller that stays blocked. -/
def mutexLock (t : ThreadId) (w : World) : Option (List Event × World) :=
  match w.glContext.mutex with
  | none =>
    some ([Event.lock t], { w with glContext := { w.glContext with mutex := some t } })
  | some _ => none

/-- The call `mContext->mutex.unlock()`. -/
def mutexUnlock (t : ThreadId) (w : World) : List Event × World :=
  ([Event.unlock t], { w with glContext := { w.glContext with mutex := none } })

/-- The call `SDL_GL_MakeCurrent(window, context)` on thread `t`. -/
def SDL_GL_MakeCurrent (t : ThreadId) (window context : Ptr) (w : World) :
    List Event × World :=
  ([Event.makeCurrent t window context], w)

/-- The block `if (id != lastThreadID) { std::cout << ...; lastThreadID = id; }`
of the constructor, with `id = std::this_thread::get_id()`. -/
def logThread (t : ThreadId) (w : World) : List Event × World :=
  let id : Option ThreadId := some t
  if id ≠ w.lastThreadID then
    ([Event.coutMakeCurrent w.glContext.window w.glContext.context t],
      { w with lastThreadID := id })
  else
    ([], w)

/-- The constructor `GLContextLock::GLContextLock(GLContext &)` on thread `t`. -/
def GLContextLock.GLContextLock (t : ThreadId) (w : World) : Option (List Event × World) :=
  match mutexLock t w with
  | none => none
  | some (e1, w1) =>
    let r2 := SDL_GL_MakeCurrent t w1.glContext.window w1.glContext.context w1
    let r3 := logThread t r2.2
    some (e1 ++ r2.1 ++ r3.1, r3.2)

/-- The destructor `GLContextLock::~GLContextLock()` on thread `t`. -/
def GLContextLock.destroy (t : ThreadId) (w : World) : List Event × World :=
  let r1 := checkGLErrors t w
  let r2 := SDL_GL_MakeCurrent t 0 0 r1.2
  let r3 := mutexUnlock t r2.2
  (r1.1 ++ r2.1 ++ r3.1, r3.2)

/-- What a block of client code does: its events, whether it left by raising
an exception, and the state it leaves. -/
structure BodyResult where
  events : List Event
  raised : Bool
  world : World

/-- A block `{ GLContextLock lock(context); body }` on thread `t`: the
constructor, the body, and the destructor, which C++ runs when the scope is
left, normally or while an exception unwinds it. -/
def withGLContextLock (t : ThreadId) (body : World → BodyResult) (w : World) :
    Option BodyResult :=
  match GLContextLock.GLContextLock t w with
  | none => none
  | some (e1, w1) =>
    let b := body w1
    let d := GLContextLock.destroy t b.world
    some { events := e1 ++ b.events ++ d.1, raised := b.raised, world := d.2 }

/-- One OpenGL call `name(...)` on thread `t`: the device appends to the error
queue the codes it flags for this call. -/
def glCall (t : ThreadId) (name : String) (w : World) : List Event × World :=
  match w.device with
  | [] => ([Event.gl t name], w)
  | flagged :: rest =>
    ([Event.gl t name], { w with errorQueue := w.errorQueue ++ flagged, device := rest })

/-- A straight-line sequence of OpenGL calls. -/
def glCalls (t : ThreadId) : List String → World → List Event × World
  | [], w => ([], w)
  | name :: names, w =>
    let r1 := glCall t name w
    let r2 := glCalls t names r1.2
    (r1.1 ++ r2.1, r2.2)

/-- The OpenGL calls of `initialize`, in source order. -/
def initializeCalls : List String :=
  ["glGenVertexArrays", "glBindVertexArray", "glGenBuffers", "glBindBuffer",
   "glBufferData", "glCreateShader", "glShaderSource", "glCompileShader",
   "glCreateShader", "glShaderSource", "glCompileShader", "glCreateProgram",
   "glAttachShader", "glAttachShader", "glLinkProgram", "glVertexAttribPointer",
   "glEnableVertexAttribArray"]

/-- The OpenGL calls of one render-loop iteration, before the swap. -/
def renderCalls : List String :=
  ["glClearColor", "glClear", "glUseProgram", "glBindVertexArray", "glDrawArrays"]

/-- The OpenGL calls of the teardown block. -/
def teardownCalls : List String :=
  ["glDeleteVertexArrays", "glDeleteBuffers", "glDeleteProgram"]

/-- A body made of OpenGL calls only; it does not raise. -/
def glBody (t : ThreadId) (calls : List String) (w : World) : BodyResult :=
  let r := glCalls t calls w
  { events := r.1, raised := false, world := r.2 }

/-- The function `initialize(GLContext &)`, run on thread `t`. -/
def initializeGL (t : ThreadId) (w : World) : Option BodyResult :=
  withGLContextLock t (glBody t initializeCalls) w

/-- The body of one render-loop iteration: the draw calls, then
`SDL_GL_SwapWindow(window)`. -/
def renderBody (t : ThreadId) (window : Ptr) (w : World) : BodyResult :=
  let r := glCalls t renderCalls w
  { events := r.1 ++ [Event.swapWindow t window], raised := false, world := r.2 }

/-- The block of one render-loop iteration of `main`. -/
def renderFrame (t : ThreadId) (window : Ptr) (w : World) : Option BodyResult :=
  withGLContextLock t (renderBody t window) w

/-- The teardown block of `main`. -/
def teardown (t : ThreadId) (w : World) : Option BodyResult :=
  withGLContextLock t (glBody t teardownCalls) w

/-- The loop `while (SDL_PollEvent(&event)) { if (event.type == SDL_QUIT) quit = true; }`
over the event types delivered in this iteration. -/
def pollEvents (t : ThreadId) : List Nat → Bool → List Event × Bool
  | [], quit => ([Event.pollEvent t none], quit)
  | ty :: rest, quit =>
    let r := pollEvents t rest (if ty = SDL_QUIT then true else quit)
    (Event.pollEvent t (some ty) :: r.1, r.2)

/-- A run of `main`, or the part of it observed so far: `exited` is false when
the render loop is still running at the end of the observation. -/
structure Run where
  trace : List Event
  exited : Bool
  world : World

/-- The loop `while (!quit) { ... }` of `main`.  `polls` holds, for each
iteration observed, the event types `SDL_PollEvent` delivers in it; when the
list is used up the loop is still running and the observation stops. -/
def renderLoop (t : ThreadId) (window : Ptr) : List (List Nat) → World → Option Run
  | [], w => some { trace := [], exited := false, world := w }
  | batch :: more, w =>
    let p := pollEvents t batch false
    match renderFrame t window w with
    | none => none
    | some b =>
      if p.2 then
        some { trace := p.1 ++ b.events, exited := true, world := b.world }
      else
        match renderLoop t window more b.world with
        | none => none
        | some r => some { r with trace := p.1 ++ b.events ++ r.trace }

/-- What the environment decides in a run of `main`: the two thread ids, what
`SDL_CreateWindow` and `SDL_GL_CreateContext` return (`0` on failure), and
the errors the device flags on each OpenGL call. -/
structure Env where
  mainThread : ThreadId
  initThread : ThreadId
  createdWindow : Ptr
  createdContext : Ptr
  device : List (List GLenum)

/-- The function `createContext(SDL_Window *)`. -/
def createContext (env : Env) (window : Ptr) : List Event × GLContext :=
  ([Event.call env.mainThread "SDL_GL_CreateContext",
    Event.call env.mainThread "gladLoadGL",
    Event.makeCurrent env.mainThread 0 0],
   { window := window, context := env.createdContext, mutex := none })

/-- The calls of `main` before `createContext`. -/
def startupEvents (env : Env) : List Event :=
  [Event.call env.mainThread "SDL_SetMainReady",
   Event.call env.mainThread "SDL_Init",
   Event.call env.mainThread "SDL_GL_SetAttribute",
   Event.call env.mainThread "SDL_GL_SetAttribute",
   Event.call env.mainThread "SDL_GL_SetAttribute",
   Event.call env.mainThread "SDL_GL_SetAttribute",
   Event.call env.mainThread "SDL_CreateWindow"]

/-- The calls of `main` after the teardown block. -/
def shutdownEvents (env : Env) : List Event :=
  [Event.call env.mainThread "SDL_GL_DeleteContext",
   Event.call env.mainThread "SDL_DestroyWindow",
   Event.call env.mainThread "SDL_Quit"]

/-- The function `main`.  The spawned thread runs `initialize` and `main` does
nothing but wait in `join` meanwhile, so the events of a run form one
sequence. -/
def main (env : Env) (polls : List (List Nat)) : Option Run :=
  let window := env.createdWindow
  let c := createContext env window
  let w0 : World :=
    { glContext := c.2, errorQueue := [], lastThreadID := none, device := env.device }
  match initializeGL env.initThread w0 with
  | none => none
  | some i =>
    let head := startupEvents env ++ c.1 ++
      [Event.spawn env.mainThread env.initThread] ++ i.events ++
      [Event.join env.mainThread env.initThread]
    match renderLoop env.mainThread window polls i.world with
    | none => none
    | some r =>
      if r.exited then
        match teardown env.mainThread r.world with
        | none => none
        | some d =>
          some { trace := head ++ r.trace ++ d.events ++ shutdownEvents env,
                 exited := true, world := d.world }
      else
        some { trace := head ++ r.trace, exited := false, world := r.world }

/-! ## Threads interleaving on the guard -/

/-- Where a thread stands in `{ GLContextLock lock(context); body }`:
before each statement of the constructor, inside the body, and before each
statement of the destructor. -/
inductive Pc where
  /-- Not in the block (about to call `mutex.lock()`). -/
  | outside
  /-- The lock is taken; about to call `SDL_GL_MakeCurrent(window, context)`. -/
  | locked
  /-- The context is current; about to run the thread-id block. -/
  | activated
  /-- The constructor has returned; the body runs. -/
  | guarded
  /-- The destructor has run `checkGLErrors`. -/
  | drained
  /-- The destructor has run `SDL_GL_MakeCurrent(nullptr, nullptr)`; about to unlock. -/
  | deactivated
  deriving DecidableEq, Repr

/-- The shared state, the events so far, and where each thread stands. -/
structure Sys where
  world : World
  trace : List Event
  pc : ThreadId → Pc

/-- Move thread `t` to `p`. -/
def setPc (pc : ThreadId → Pc) (t : ThreadId) (p : Pc) : ThreadId → Pc :=
  fun u => if u = t then p else pc u

/-- One statement of thread `t`.  A thread at `mutex.lock()` while the mutex is
held makes no progress.  Inside the body, `some name` is one more OpenGL
call and `none` leaves the body, which starts the destructor. -/
def stepThread (t : ThreadId) (bodyCall : Option String) (s : Sys) : Sys :=
  match s.pc t with
  | Pc.outside =>
    match mutexLock t s.world with
    | none => s
    | some r => { world := r.2, trace := s.trace ++ r.1, pc := setPc s.pc t Pc.locked }
  | Pc.locked =>
    let r := SDL_GL_MakeCurrent t s.world.glContext.window s.world.glContext.context s.world
    { world := r.2, trace := s.trace ++ r.1, pc := setPc s.pc t Pc.activated }
  | Pc.activated =>
    let r := logThread t s.world
    { world := r.2, trace := s.trace ++ r.1, pc := setPc s.pc t Pc.guarded }
  | Pc.guarded =>
    match bodyCall with
    | some name =>
      let r := glCall t name s.world
      { world := r.2, trace := s.trace ++ r.1, pc := s.pc }
    | none =>
      let r := checkGLErrors t s.world
      { world := r.2, trace := s.trace ++ r.1, pc := setPc s.pc t Pc.drained }
  | Pc.drained =>
    let r := SDL_GL_MakeCurrent t 0 0 s.world
    { world := r.2, trace := s.trace ++ r.1, pc := setPc s.pc t Pc.deactivated }
  | Pc.deactivated =>
    let r := mutexUnlock t s.world
    { world := r.2, trace := s.trace ++ r.1, pc := setPc s.pc t Pc.outside }

/-- An interleaving: the scheduler picks, step by step, which thread runs its
next statement. -/
def runSchedule : List (ThreadId × Option String) → Sys → Sys
  | [], s => s
  | (t, c) :: rest, s => runSchedule rest (stepThread t c s)

/-- All threads outside the block, nothing observed yet. -/
def startSys (w : World) : Sys :=
  { world := w, trace := [], pc := fun _ => Pc.outside }

/-- The guarded section: from the return of the constructor to the end of the
destructor. -/
def inGuardedSection (p : Pc) : Bool :=
  p = Pc.guarded || p = Pc.drained || p = Pc.deactivated

/-! ## Observations on event lists -/

/-- The lines `checkGLErrors` wrote. -/
def coutLines : List Event → List String
  | [] => []
  | Event.cout line :: es => line :: coutLines es
  | _ :: es => coutLines es

/-- The codes returned by the `glGetError` queries, in order. -/
def getErrorResults : List Event → List GLenum
  | [] => []
  | Event.getError _ result :: es => result :: getErrorResults es
  | _ :: es => getErrorResults es

/-- The thread-transition lines of the constructor. -/
def makeCurrentLines : List Event → List Event
  | [] => []
  | Event.coutMakeCurrent window context id :: es =>
    Event.coutMakeCurrent window context id :: makeCurrentLines es
  | _ :: es => makeCurrentLines es

/-- The `SDL_GL_MakeCurrent` calls. -/
def makeCurrentCalls : List Event → List Event
  | [] => []
  | Event.makeCurrent t window context :: es =>
    Event.makeCurrent t window context :: makeCurrentCalls es
  | _ :: es => makeCurrentCalls es

/-- The five codes `checkGLErrors` has a `case` for, `GL_NO_ERROR` apart. -/
def recognised (c : GLenum) : Bool :=
  c = GL_INVALID_ENUM || c = GL_INVALID_VALUE || c = GL_INVALID_OPERATION ||
    c = GL_INVALID_FRAMEBUFFER_OPERATION || c = GL_OUT_OF_MEMORY

/-- The kind name the specification gives to an error code. -/
def kindName (c : GLenum) : String :=
  if c = GL_INVALID_ENUM then "GL_INVALID_ENUM"
  else if c = GL_INVALID_VALUE then "GL_INVALID_VALUE"
  else if c = GL_INVALID_OPERATION then "GL_INVALID_OPERATION"
  else if c = GL_INVALID_FRAMEBUFFER_OPERATION then "GL_INVALID_FRAMEBUFFER_OPERATION"
  else if c = GL_OUT_OF_MEMORY then "GL_OUT_OF_MEMORY"
  else "unknown"

/-- The events of a drain over a queue of pending codes, by recursion on the
queue; `checkGLErrors_eq` shows `checkGLErrors` performs exactly these. -/
def drainEvents (t : ThreadId) : List GLenum → List Event
  | [] => [Event.getError t GL_NO_ERROR]
  | c :: rest =>
    if c = GL_NO_ERROR then [Event.getError t c]
    else
      match errorString c with
      | some string => Event.getError t c :: Event.cout string :: drainEvents t rest
      | none => Event.getError t c :: drainEvents t rest

/-- The queue a drain leaves behind. -/
def drainRest : List GLenum → List GLenum
  | [] => []
  | c :: rest => if c = GL_NO_ERROR then rest else drainRest rest

/-- The release order as section 4.1 of the specification words it:
deactivate the context, then drain and report the errors, then unlock. -/
def releaseAsSpecified (t : ThreadId) (w : World) : List Event × World :=
  let r1 := SDL_GL_MakeCurrent t 0 0 w
  let r2 := checkGLErrors t r1.2
  let r3 := mutexUnlock t r2.2
  (r1.1 ++ r2.1 ++ r3.1, r3.2)

/-- The events `checkGLErrors` performs on thread `t`: queries and lines. -/
def isDrainEvent (t : ThreadId) : Event → Bool
  | Event.getError u _ => u = t
  | Event.cout _ => true
  | _ => false

/-- Guarded blocks run one after the other, each by its thread with its
OpenGL calls: a sequence of guard acquisitions. -/
def runSections : List (ThreadId × List String) → World → Option (List Event × World)
  | [], w => some ([], w)
  | (t, calls) :: rest, w =>
    match withGLContextLock t (glBody t calls) w with
    | none => none
    | some b =>
      match runSections rest b.world with
      | none => none
      | some r => some (b.events ++ r.1, r.2)

/-- The lines section 4.3 of the specification asks for: one for each
acquisition whose thread differs from the recorded one, the record being the
thread of the acquisition before. -/
def transitionLines (window context : Ptr) : Option ThreadId → List ThreadId → List Event
  | _, [] => []
  | recorded, t :: ts =>
    (if some t ≠ recorded then [Event.coutMakeCurrent window context t] else []) ++
      transitionLines window context (some t) ts

/-- The record after a sequence of acquisitions: the last acquiring thread. -/
def lastRecorded : Option ThreadId → List ThreadId → Option ThreadId
  | recorded, [] => recorded
  | _, t :: ts => lastRecorded (some t) ts

/-- The invariant behind mutual exclusion: a thread that is anywhere between
its `lock()` and its `unlock()` is the owner of the mutex. -/
def OwnerInv (s : Sys) : Prop :=
  ∀ t, s.pc t ≠ Pc.outside → s.world.glContext.mutex = some t

/-- Where the trace stands with respect to the guard: no guard held, the
mutex locked by `t`, the context made current on `t` by the guard, or the
context released again by the guard of `t` (mutex still locked). -/
inductive Phase where
  | free
  | locked (t : ThreadId)
  | active (t : ThreadId)
  | released (t : ThreadId)
  deriving DecidableEq, Repr

/-- One step of the monitor for "device calls only under an active guard".
A device call (an OpenGL call, `SDL_GL_SwapWindow`, a `glGetError` query)
by thread `t` is accepted only in phase `active t`, that is after the
`SDL_GL_MakeCurrent(window, context)` of a guard held by `t` and before its
`SDL_GL_MakeCurrent(nullptr, nullptr)`.  `none` rejects the trace. -/
def guardStep (window context : Ptr) (p : Phase) : Event → Option Phase
  | Event.lock t =>
    match p with
    | Phase.free => some (Phase.locked t)
    | _ => none
  | Event.unlock t =>
    match p with
    | Phase.released u => if u = t then some Phase.free else none
    | _ => none
  | Event.makeCurrent t w c =>
    match p with
    | Phase.free => some Phase.free
    | Phase.locked u =>
      if u = t ∧ w = window ∧ c = context then some (Phase.active t) else none
    | Phase.active u =>
      if u = t ∧ w = 0 ∧ c = 0 then some (Phase.released t) else none
    | Phase.released _ => none
  | Event.getError t _ =>
    match p with
    | Phase.active u => if u = t then some p else none
    | _ => none
  | Event.gl t _ =>
    match p with
    | Phase.active u => if u = t then some p else none
    | _ => none
  | Event.swapWindow t _ =>
    match p with
    | Phase.active u => if u = t then some p else none
    | _ => none
  | Event.cout _ => some p
  | Event.coutMakeCurrent _ _ _ => some p
  | Event.pollEvent _ _ => some p
  | Event.call _ _ => some p
  | Event.spawn _ _ => some p
  | Event.join _ _ => some p

/-- The monitor run over a trace. -/
def guardRun (window context : Ptr) : Phase → List Event → Option Phase
  | p, [] => some p
  | p, e :: es =>
    match guardStep window context p e with
    | none => none
    | some p1 => guardRun window context p1 es

/-- Every device call of the trace is made under an active guard. -/
def deviceCallsGuarded (window context : Ptr) (trace : List Event) : Bool :=
  (guardRun window context Phase.free trace).isSome

/-- A `mutex.lock()` event. -/
def isLockCall : Event → Bool
  | Event.lock _ => true
  | _ => false

/-- A `mutex.unlock()` event. -/
def isUnlockCall : Event → Bool
  | Event.unlock _ => true
  | _ => false

/-- A thread-transition line of the constructor. -/
def isMakeCurrentLine : Event → Bool
  | Event.coutMakeCurrent _ _ _ => true
  | _ => false

/-- A call that only the render loop or the teardown block of `main` makes:
the clear, program and draw calls, the swap, and the three deletions
(`glBindVertexArray` is left out, `initialize` calls it as well). -/
def isDrawOrTeardownCall : Event → Bool
  | Event.gl _ name =>
    name = "glClearColor" || name = "glClear" || name = "glUseProgram" ||
      name = "glDrawArrays" || name = "glDeleteVertexArrays" ||
      name = "glDeleteBuffers" || name = "glDeleteProgram"
  | Event.swapWindow _ _ => true
  | _ => false

/-- An event that is neither a lock, nor an unlock, nor a call of the render
loop or of the teardown block. -/
def isQuiet (e : Event) : Bool :=
  !isLockCall e && !isUnlockCall e && !isDrawOrTeardownCall e

/-! ## Concrete inputs -/

/-- A state with "invalid enum" then "invalid operation" pending. -/
def worldEnumThenOperation : World :=
  { glContext := { window := 7, context := 9, mutex := some 1 },
    errorQueue := [GL_INVALID_ENUM, GL_INVALID_OPERATION],
    lastThreadID := some 1, device := [] }

/-- A state with an unrecognised code (`GL_STACK_OVERFLOW`, 0x0503) pending
before "invalid enum". -/
def worldUnknownThenEnum : World :=
  { glContext := { window := 7, context := 9, mutex := some 1 },
    errorQueue := [0x0503, GL_INVALID_ENUM],
    lastThreadID := some 1, device := [] }

/-- A state with an unrecognised code between two recognised ones. -/
def worldUnknownInside : World :=
  { glContext := { window := 7, context := 9, mutex := some 1 },
    errorQueue := [GL_INVALID_VALUE, 0x0503, GL_OUT_OF_MEMORY],
    lastThreadID := some 1, device := [] }

/-- A free context, nothing pending, no thread recorded yet. -/
def worldFresh : World :=
  { glContext := { window := 7, context := 9, mutex := none },
    errorQueue := [], lastThreadID := none, device := [] }

/-- A body that makes one draw call, which flags "invalid enum", and leaves by
raising an exception. -/
def raisingBody (w : World) : BodyResult :=
  { events := [Event.gl 1 "glDrawArrays"], raised := true,
    world := { w with errorQueue := w.errorQueue ++ [GL_INVALID_ENUM] } }

/-- Thread 1 takes the lock, activates, logs and is in its body; thread 2 then
tries to take the lock, three times. -/
def scheduleContended : List (ThreadId × Option String) :=
  [(1, none), (1, none), (1, none), (2, none), (1, some "glClear"), (2, none), (2, none)]

/-- A run in which `SDL_CreateWindow` returned no window and
`SDL_GL_CreateContext` no context; main thread 1, spawned thread 2. -/
def envCreationFailed : Env :=
  { mainThread := 1, initThread := 2, createdWindow := 0, createdContext := 0,
    device := [] }

/-! ## The error drain -/

theorem checkGLErrors_eq_aux (t : ThreadId) :
    ∀ (q : List GLenum) (w : World), w.errorQueue = q →
      checkGLErrors t w = (drainEvents t q, { w with errorQueue := drainRest q }) := by
  intro q
  induction q with
  | nil =>
    intro w hq
    rw [checkGLErrors]
    simp only [glGetError, hq]
    simp [drainEvents, drainRest, GL_NO_ERROR, ← hq]
  | cons c rest ih =>
    intro w hq
    rw [checkGLErrors]
    simp only [glGetError, hq]
    by_cases hc : c = GL_NO_ERROR
    · simp [drainEvents, drainRest, hc]
    · have h1 := ih { w with errorQueue := rest } rfl
      simp only [drainEvents, drainRest, hc, if_false, ne_eq, not_false_eq_true, dite_true]
      cases hs : errorString c <;> simp [h1]

theorem checkGLErrors_eq (t : ThreadId) (w : World) :
    checkGLErrors t w =
      (drainEvents t w.errorQueue, { w with errorQueue := drainRest w.errorQueue }) :=
  checkGLErrors_eq_aux t w.errorQueue w rfl

theorem errorString_of_recognised (c : GLenum) (h : recognised c = true) :
    errorString c = some (kindName c) := by
  simp only [recognised, Bool.or_eq_true, decide_eq_true_eq] at h
  rcases h with (((h | h) | h) | h) | h <;> subst h <;> decide

theorem errorString_of_not_recognised (c : GLenum) (h0 : c ≠ GL_NO_ERROR)
    (h : recognised c = false) : errorString c = none := by
  simp only [recognised, Bool.or_eq_false_iff, decide_eq_false_iff_not] at h
  obtain ⟨⟨⟨⟨h1, h2⟩, h3⟩, h4⟩, h5⟩ := h
  simp [errorString, h0, h1, h2, h3, h4, h5]

theorem recognised_ne_zero (c : GLenum) (h : recognised c = true) : c ≠ GL_NO_ERROR := by
  simp only [recognised, Bool.or_eq_true, decide_eq_true_eq] at h
  rcases h with (((h | h) | h) | h) | h <;> subst h <;> decide

theorem coutLines_drainEvents (t : ThreadId) (q : List GLenum)
    (h : ∀ c ∈ q, c ≠ GL_NO_ERROR) :
    coutLines (drainEvents t q) = (q.filter recognised).map kindName := by
  induction q with
  | nil => simp [drainEvents, coutLines]
  | cons c rest ih =>
    have hc : c ≠ GL_NO_ERROR := h c (List.mem_cons_self c rest)
    have ih1 := ih (fun d hd => h d (List.mem_cons_of_mem c hd))
    cases hr : recognised c with
    | true =>
      simp [drainEvents, hc, errorString_of_recognised c hr, coutLines, ih1, hr]
    | false =>
      simp [drainEvents, hc, errorString_of_not_recognised c hc hr, coutLines, ih1, hr]

theorem getErrorResults_drainEvents (t : ThreadId) (q : List GLenum)
    (h : ∀ c ∈ q, c ≠ GL_NO_ERROR) :
    getErrorResults (drainEvents t q) = q ++ [GL_NO_ERROR] := by
  induction q with
  | nil => simp [drainEvents, getErrorResults]
  | cons c rest ih =>
    have hc : c ≠ GL_NO_ERROR := h c (List.mem_cons_self c rest)
    have ih1 := ih (fun d hd => h d (List.mem_cons_of_mem c hd))
    cases hs : errorString c <;> simp [drainEvents, hc, hs, getErrorResults, ih1]

theorem drainRest_of_ne_zero (q : List GLenum) (h : ∀ c ∈ q, c ≠ GL_NO_ERROR) :
    drainRest q = [] := by
  induction q with
  | nil => rfl
  | cons c rest ih =>
    have hc : c ≠ GL_NO_ERROR := h c (List.mem_cons_self c rest)
    simp [drainRest, hc, ih (fun d hd => h d (List.mem_cons_of_mem c hd))]

/-- C4: when every pending code is one of the five recognised codes,
`checkGLErrors` writes exactly the kind names of the queued codes, one line
per code, oldest first. -/
theorem checkGLErrors_reports_recognised (t : ThreadId) (w : World)
    (h : ∀ c ∈ w.errorQueue, recognised c = true) :
    coutLines (checkGLErrors t w).1 = w.errorQueue.map kindName := by
  rw [checkGLErrors_eq]
  have h0 : ∀ c ∈ w.errorQueue, c ≠ GL_NO_ERROR := fun c hc => recognised_ne_zero c (h c hc)
  have hf : w.errorQueue.filter recognised = w.errorQueue :=
    List.filter_eq_self.mpr (fun c hc => h c hc)
  show coutLines (drainEvents t w.errorQueue) = w.errorQueue.map kindName
  rw [coutLines_drainEvents t w.errorQueue h0, hf]

/-- C4 at the scenario of the specification: "invalid enum" then "invalid
operation" pending gives exactly those two lines, in that order. -/
theorem checkGLErrors_reports_recognised_witness :
    (∀ c ∈ worldEnumThenOperation.errorQueue, recognised c = true) ∧
    coutLines (checkGLErrors 1 worldEnumThenOperation).1 =
      ["GL_INVALID_ENUM", "GL_INVALID_OPERATION"] :=
  ⟨by decide, checkGLErrors_reports_recognised 1 worldEnumThenOperation (by decide)⟩

/-- C5 as stated fails: two non-zero codes are pending, the first one outside
the five recognised codes, and `checkGLErrors` writes one line only. -/
theorem checkGLErrors_unknown_not_reported :
    (∀ c ∈ worldUnknownThenEnum.errorQueue, c ≠ GL_NO_ERROR) ∧
    worldUnknownThenEnum.errorQueue.length = 2 ∧
    coutLines (checkGLErrors 1 worldUnknownThenEnum).1 = ["GL_INVALID_ENUM"] ∧
    (coutLines (checkGLErrors 1 worldUnknownThenEnum).1).length ≠
      worldUnknownThenEnum.errorQueue.length := by
  have h : coutLines (checkGLErrors 1 worldUnknownThenEnum).1 = ["GL_INVALID_ENUM"] := by
    rw [checkGLErrors_eq]
    decide
  refine ⟨by decide, rfl, h, ?_⟩
  rw [h]
  decide

/-- C5, amended: for a queue of non-zero codes `checkGLErrors` writes one line
for each recognised code, in queue order, and none for any other code; the
number of lines is the number of recognised codes in the queue. -/
theorem checkGLErrors_reports_only_recognised (t : ThreadId) (w : World)
    (h : ∀ c ∈ w.errorQueue, c ≠ GL_NO_ERROR) :
    coutLines (checkGLErrors t w).1 = (w.errorQueue.filter recognised).map kindName ∧
    (coutLines (checkGLErrors t w).1).length = w.errorQueue.countP recognised := by
  rw [checkGLErrors_eq]
  have h1 := coutLines_drainEvents t w.errorQueue h
  refine ⟨h1, ?_⟩
  show (coutLines (drainEvents t w.errorQueue)).length = _
  rw [h1, List.length_map, List.countP_eq_length_filter]

/-- C5, amended, at a queue with an unrecognised code in front. -/
theorem checkGLErrors_reports_only_recognised_witness :
    (∀ c ∈ worldUnknownThenEnum.errorQueue, c ≠ GL_NO_ERROR) ∧
    coutLines (checkGLErrors 1 worldUnknownThenEnum).1 =
      (worldUnknownThenEnum.errorQueue.filter recognised).map kindName ∧
    (coutLines (checkGLErrors 1 worldUnknownThenEnum).1).length =
      worldUnknownThenEnum.errorQueue.countP recognised :=
  ⟨by decide, checkGLErrors_reports_only_recognised 1 worldUnknownThenEnum (by decide)⟩

/-- C6: for a queue of N non-zero codes, recognised or not, `checkGLErrors`
(a total function) makes exactly N + 1 `glGetError` queries, which return
the queued codes in order and then `GL_NO_ERROR`, and it leaves the queue
empty and the rest of the state as it was. -/
theorem checkGLErrors_drains (t : ThreadId) (w : World)
    (h : ∀ c ∈ w.errorQueue, c ≠ GL_NO_ERROR) :
    getErrorResults (checkGLErrors t w).1 = w.errorQueue ++ [GL_NO_ERROR] ∧
    (getErrorResults (checkGLErrors t w).1).length = w.errorQueue.length + 1 ∧
    (checkGLErrors t w).2 = { w with errorQueue := [] } := by
  rw [checkGLErrors_eq]
  have h1 := getErrorResults_drainEvents t w.errorQueue h
  refine ⟨h1, ?_, ?_⟩
  · show (getErrorResults (drainEvents t w.errorQueue)).length = _
    rw [h1]
    simp
  · show ({ w with errorQueue := drainRest w.errorQueue } : World) = _
    rw [drainRest_of_ne_zero w.errorQueue h]

/-- C6 at a queue with an unrecognised code in the middle: four queries, and
the code queued after the unrecognised one is consumed too. -/
theorem checkGLErrors_drains_witness :
    (∀ c ∈ worldUnknownInside.errorQueue, c ≠ GL_NO_ERROR) ∧
    getErrorResults (checkGLErrors 1 worldUnknownInside).1 =
      [GL_INVALID_VALUE, 0x0503, GL_OUT_OF_MEMORY, GL_NO_ERROR] ∧
    (getErrorResults (checkGLErrors 1 worldUnknownInside).1).length = 3 + 1 ∧
    (checkGLErrors 1 worldUnknownInside).2 = { worldUnknownInside with errorQueue := [] } :=
  ⟨by decide, checkGLErrors_drains 1 worldUnknownInside (by decide)⟩

/-! ## The guard -/

theorem isDrainEvent_drainEvents (t : ThreadId) (q : List GLenum) :
    ∀ e ∈ drainEvents t q, isDrainEvent t e = true := by
  induction q with
  | nil => simp [drainEvents, isDrainEvent]
  | cons c rest ih =>
    intro e he
    by_cases hc : c = GL_NO_ERROR
    · simp [drainEvents, hc] at he
      subst he
      simp [isDrainEvent]
    · cases hs : errorString c with
      | none =>
        simp only [drainEvents, hc, hs, if_false, List.mem_cons] at he
        rcases he with he | he
        · subst he
          simp [isDrainEvent]
        · exact ih e he
      | some str =>
        simp only [drainEvents, hc, hs, if_false, List.mem_cons] at he
        rcases he with he | he | he
        · subst he
          simp [isDrainEvent]
        · subst he
          simp [isDrainEvent]
        · exact ih e he

theorem constructor_eq (t : ThreadId) (w : World) (h : w.glContext.mutex = none) :
    GLContextLock.GLContextLock t w =
      some ([Event.lock t, Event.makeCurrent t w.glContext.window w.glContext.context] ++
          (logThread t { w with glContext := { w.glContext with mutex := some t } }).1,
        (logThread t { w with glContext := { w.glContext with mutex := some t } }).2) := by
  simp [GLContextLock.GLContextLock, mutexLock, h, SDL_GL_MakeCurrent]

theorem destroy_eq (t : ThreadId) (w : World) :
    GLContextLock.destroy t w =
      (drainEvents t w.errorQueue ++ [Event.makeCurrent t 0 0, Event.unlock t],
        { w with errorQueue := drainRest w.errorQueue,
                 glContext := { w.glContext with mutex := none } }) := by
  simp [GLContextLock.destroy, checkGLErrors_eq, SDL_GL_MakeCurrent, mutexUnlock]

theorem withGLContextLock_of_constructor (t : ThreadId) (body : World → BodyResult)
    (w : World) (pre : List Event) (w1 : World)
    (hc : GLContextLock.GLContextLock t w = some (pre, w1)) :
    withGLContextLock t body w =
      some { events := pre ++ (body w1).events ++ (GLContextLock.destroy t (body w1).world).1,
             raised := (body w1).raised,
             world := (GLContextLock.destroy t (body w1).world).2 } := by
  simp [withGLContextLock, hc]

theorem makeCurrentCalls_logThread (t : ThreadId) (w : World) :
    makeCurrentCalls (logThread t w).1 = [] := by
  by_cases hid : (some t : Option ThreadId) = w.lastThreadID <;>
    simp [logThread, hid, makeCurrentCalls]

/-- C3 as stated fails: with "invalid enum" and "invalid operation" pending,
the destructor queries and reports the errors first and deactivates the
context after that, where the order of the specification deactivates first. -/
theorem destroy_not_deactivate_first :
    (GLContextLock.destroy 1 worldEnumThenOperation).1 =
      [Event.getError 1 GL_INVALID_ENUM, Event.cout "GL_INVALID_ENUM",
       Event.getError 1 GL_INVALID_OPERATION, Event.cout "GL_INVALID_OPERATION",
       Event.getError 1 GL_NO_ERROR, Event.makeCurrent 1 0 0, Event.unlock 1] ∧
    (releaseAsSpecified 1 worldEnumThenOperation).1 =
      [Event.makeCurrent 1 0 0,
       Event.getError 1 GL_INVALID_ENUM, Event.cout "GL_INVALID_ENUM",
       Event.getError 1 GL_INVALID_OPERATION, Event.cout "GL_INVALID_OPERATION",
       Event.getError 1 GL_NO_ERROR, Event.unlock 1] ∧
    (GLContextLock.destroy 1 worldEnumThenOperation).1 ≠
      (releaseAsSpecified 1 worldEnumThenOperation).1 := by
  have h1 : (GLContextLock.destroy 1 worldEnumThenOperation).1 =
      [Event.getError 1 GL_INVALID_ENUM, Event.cout "GL_INVALID_ENUM",
       Event.getError 1 GL_INVALID_OPERATION, Event.cout "GL_INVALID_OPERATION",
       Event.getError 1 GL_NO_ERROR, Event.makeCurrent 1 0 0, Event.unlock 1] := by
    rw [destroy_eq]
    decide
  have h2 : (releaseAsSpecified 1 worldEnumThenOperation).1 =
      [Event.makeCurrent 1 0 0,
       Event.getError 1 GL_INVALID_ENUM, Event.cout "GL_INVALID_ENUM",
       Event.getError 1 GL_INVALID_OPERATION, Event.cout "GL_INVALID_OPERATION",
       Event.getError 1 GL_NO_ERROR, Event.unlock 1] := by
    simp only [releaseAsSpecified, SDL_GL_MakeCurrent, mutexUnlock, checkGLErrors_eq]
    decide
  refine ⟨h1, h2, ?_⟩
  rw [h1, h2]
  decide

/-- C3, amended: the destructor first drains and reports the device error
queue (queries and report lines only, the context still current), then
deactivates the context with `SDL_GL_MakeCurrent(nullptr, nullptr)`, then
unlocks the mutex, which is free afterwards. -/
theorem destroy_order (t : ThreadId) (w : World) :
    (GLContextLock.destroy t w).1 =
      (checkGLErrors t w).1 ++ [Event.makeCurrent t 0 0, Event.unlock t] ∧
    (∀ e ∈ (checkGLErrors t w).1, isDrainEvent t e = true) ∧
    (GLContextLock.destroy t w).2.glContext.mutex = none ∧
    (GLContextLock.destroy t w).2.errorQueue = (checkGLErrors t w).2.errorQueue := by
  rw [destroy_eq, checkGLErrors_eq]
  exact ⟨rfl, isDrainEvent_drainEvents t w.errorQueue, rfl, rfl⟩

/-- C2: a block under a `GLContextLock`, taken with the mutex free, performs
the events of the constructor, then those of the body, then those of the
destructor.  The constructor makes exactly one `SDL_GL_MakeCurrent` call,
the activation `(window, context)`; the destructor makes queries and report
lines, then exactly one deactivation `(nullptr, nullptr)`, then the unlock.
The body is arbitrary: it may leave by raising (`raised = true`). -/
theorem withGLContextLock_pairing (t : ThreadId) (body : World → BodyResult) (w : World)
    (h : w.glContext.mutex = none) :
    ∃ pre w1 drain r,
      GLContextLock.GLContextLock t w = some (pre, w1) ∧
      withGLContextLock t body w = some r ∧
      r.events = pre ++ (body w1).events ++
        (drain ++ [Event.makeCurrent t 0 0, Event.unlock t]) ∧
      r.raised = (body w1).raised ∧
      makeCurrentCalls pre =
        [Event.makeCurrent t w.glContext.window w.glContext.context] ∧
      (∀ e ∈ drain, isDrainEvent t e = true) := by
  have hc := constructor_eq t w h
  generalize hw1 : (logThread t { w with glContext := { w.glContext with mutex := some t } }) = l at hc
  refine ⟨_, l.2, drainEvents t (body l.2).world.errorQueue, _, hc,
    withGLContextLock_of_constructor t body w _ _ hc, ?_, ?_, ?_, ?_⟩
  · simp [destroy_eq]
  · rfl
  · rw [← hw1]
    simp [makeCurrentCalls, makeCurrentCalls_logThread]
  · exact isDrainEvent_drainEvents t _

/-- C2 at a body that raises after a draw call which flagged an error. -/
theorem withGLContextLock_pairing_witness :
    worldFresh.glContext.mutex = none ∧
    (raisingBody worldFresh).raised = true ∧
    ∃ pre w1 drain r,
      GLContextLock.GLContextLock 1 worldFresh = some (pre, w1) ∧
      withGLContextLock 1 raisingBody worldFresh = some r ∧
      r.events = pre ++ (raisingBody w1).events ++
        (drain ++ [Event.makeCurrent 1 0 0, Event.unlock 1]) ∧
      r.raised = (raisingBody w1).raised ∧
      makeCurrentCalls pre = [Event.makeCurrent 1 7 9] ∧
      (∀ e ∈ drain, isDrainEvent 1 e = true) :=
  ⟨rfl, rfl, withGLContextLock_pairing 1 raisingBody worldFresh rfl⟩

/-! ## The thread transition log -/

theorem makeCurrentLines_append (xs ys : List Event) :
    makeCurrentLines (xs ++ ys) = makeCurrentLines xs ++ makeCurrentLines ys := by
  induction xs with
  | nil => rfl
  | cons e es ih => cases e <;> simp [makeCurrentLines, ih]

theorem glCalls_events (t : ThreadId) (names : List String) (w : World) :
    (glCalls t names w).1 = names.map (Event.gl t) := by
  induction names generalizing w with
  | nil => rfl
  | cons n ns ih =>
    have h1 : (glCall t n w).1 = [Event.gl t n] := by
      unfold glCall
      cases w.device <;> rfl
    simp [glCalls, ih, h1]

theorem glCall_frame (t : ThreadId) (name : String) (w : World) :
    (glCall t name w).2.glContext = w.glContext ∧
    (glCall t name w).2.lastThreadID = w.lastThreadID := by
  unfold glCall
  cases w.device <;> exact ⟨rfl, rfl⟩

theorem glCalls_frame (t : ThreadId) (names : List String) (w : World) :
    (glCalls t names w).2.glContext = w.glContext ∧
    (glCalls t names w).2.lastThreadID = w.lastThreadID := by
  induction names generalizing w with
  | nil => exact ⟨rfl, rfl⟩
  | cons n ns ih =>
    have h1 := glCall_frame t n w
    have h2 := ih (glCall t n w).2
    simp only [glCalls]
    exact ⟨h2.1.trans h1.1, h2.2.trans h1.2⟩

theorem makeCurrentLines_gl (t : ThreadId) (names : List String) :
    makeCurrentLines (names.map (Event.gl t)) = [] := by
  induction names with
  | nil => rfl
  | cons n ns ih => simp [makeCurrentLines, ih]

theorem makeCurrentLines_drainEvents (t : ThreadId) (q : List GLenum) :
    makeCurrentLines (drainEvents t q) = [] := by
  induction q with
  | nil => rfl
  | cons c rest ih =>
    by_cases hc : c = GL_NO_ERROR
    · simp [drainEvents, hc, makeCurrentLines]
    · cases hs : errorString c <;> simp [drainEvents, hc, hs, makeCurrentLines, ih]

theorem logThread_spec (t : ThreadId) (w : World) :
    (logThread t w).2.lastThreadID = some t ∧
    (logThread t w).2.glContext = w.glContext ∧
    (logThread t w).1 =
      (if some t ≠ w.lastThreadID then
        [Event.coutMakeCurrent w.glContext.window w.glContext.context t] else []) := by
  by_cases hid : (some t : Option ThreadId) = w.lastThreadID
  · simp only [logThread]
    rw [← hid]
    simp
    exact hid.symm
  · simp [logThread, hid]

theorem section_log (t : ThreadId) (calls : List String) (w : World)
    (h : w.glContext.mutex = none) :
    ∃ b, withGLContextLock t (glBody t calls) w = some b ∧
      b.world.glContext = w.glContext ∧
      b.world.lastThreadID = some t ∧
      makeCurrentLines b.events =
        (if some t ≠ w.lastThreadID then
          [Event.coutMakeCurrent w.glContext.window w.glContext.context t] else []) := by
  have hc := constructor_eq t w h
  have hl := logThread_spec t { w with glContext := { w.glContext with mutex := some t } }
  generalize (logThread t { w with glContext := { w.glContext with mutex := some t } }) = l
    at hc hl
  obtain ⟨hl1, hl2, hl3⟩ := hl
  have hf := glCalls_frame t calls l.2
  refine ⟨_, withGLContextLock_of_constructor t _ w _ _ hc, ?_, ?_, ?_⟩
  · simp only [destroy_eq, glBody, hf.1, hl2]
    cases hw : w.glContext
    rw [hw] at h
    simp only at h
    simp [h]
  · simp only [destroy_eq, glBody, hf.2, hl1]
  · simp only [destroy_eq, glBody, glCalls_events, makeCurrentLines_append,
      makeCurrentLines_gl, makeCurrentLines_drainEvents, hl3]
    by_cases hid : (some t : Option ThreadId) = w.lastThreadID <;>
      simp [hid, makeCurrentLines]

/-- C7: with the mutex free, the constructor on thread `t` returns, records
`t` in `lastThreadID`, and writes the `MakeCurrent` line (window, context
handle and thread id) exactly when `t` differs from the id recorded before.
Over any sequence of guarded blocks the lines written are those of the
acquisitions whose thread differs from the thread of the acquisition
before (from the initial record for the first), and the final record is
the last acquiring thread. -/
theorem thread_transition_log (t : ThreadId) (secs : List (ThreadId × List String))
    (w : World) (h : w.glContext.mutex = none) :
    (∃ r, GLContextLock.GLContextLock t w = some r ∧
      r.2.lastThreadID = some t ∧
      makeCurrentLines r.1 =
        (if some t ≠ w.lastThreadID then
          [Event.coutMakeCurrent w.glContext.window w.glContext.context t] else [])) ∧
    (∃ r, runSections secs w = some r ∧
      makeCurrentLines r.1 =
        transitionLines w.glContext.window w.glContext.context w.lastThreadID
          (secs.map Prod.fst) ∧
      r.2.lastThreadID = lastRecorded w.lastThreadID (secs.map Prod.fst)) := by
  constructor
  · have hl := logThread_spec t { w with glContext := { w.glContext with mutex := some t } }
    refine ⟨_, constructor_eq t w h, hl.1, ?_⟩
    simp only [makeCurrentLines_append, hl.2.2]
    by_cases hid : (some t : Option ThreadId) = w.lastThreadID <;>
      simp [hid, makeCurrentLines]
  · clear t
    induction secs generalizing w with
    | nil => exact ⟨_, rfl, rfl, rfl⟩
    | cons s rest ih =>
      obtain ⟨t, calls⟩ := s
      obtain ⟨b, hb, hg, hlast, hlines⟩ := section_log t calls w h
      obtain ⟨r, hr, hrl, hrr⟩ := ih b.world (by rw [hg]; exact h)
      refine ⟨(b.events ++ r.1, r.2), ?_, ?_, ?_⟩
      · simp [runSections, hb, hr]
      · simp only [makeCurrentLines_append, hlines, hrl, hg, hlast, List.map_cons,
          transitionLines]
      · simp only [hrr, hlast, List.map_cons, lastRecorded]

/-- C7 at the two scenarios of the claim, from the initial record `none`:
thread 1 then thread 2 gives one line for 1 then one line for 2, and
thread 1 twice gives one line. -/
theorem thread_transition_log_witness :
    worldFresh.glContext.mutex = none ∧
    ((∃ r, GLContextLock.GLContextLock 1 worldFresh = some r ∧
        r.2.lastThreadID = some 1 ∧
        makeCurrentLines r.1 = [Event.coutMakeCurrent 7 9 1]) ∧
      (∃ r, runSections [(1, ["glClear"]), (2, ["glClear"])] worldFresh = some r ∧
        makeCurrentLines r.1 =
          [Event.coutMakeCurrent 7 9 1, Event.coutMakeCurrent 7 9 2] ∧
        r.2.lastThreadID = some 2)) ∧
    ((∃ r, GLContextLock.GLContextLock 1 worldFresh = some r ∧
        r.2.lastThreadID = some 1 ∧
        makeCurrentLines r.1 = [Event.coutMakeCurrent 7 9 1]) ∧
      (∃ r, runSections [(1, ["glClear"]), (1, ["glClear"])] worldFresh = some r ∧
        makeCurrentLines r.1 = [Event.coutMakeCurrent 7 9 1] ∧
        r.2.lastThreadID = some 1)) :=
  ⟨rfl,
   thread_transition_log 1 [(1, ["glClear"]), (2, ["glClear"])] worldFresh rfl,
   thread_transition_log 1 [(1, ["glClear"]), (1, ["glClear"])] worldFresh rfl⟩

/-! ## Mutual exclusion -/

theorem ownerInv_start (w : World) : OwnerInv (startSys w) := by
  intro t ht
  exact absurd rfl ht

theorem setPc_same (pc : ThreadId → Pc) (t : ThreadId) (p : Pc) : setPc pc t p t = p := by
  simp [setPc]

theorem setPc_other (pc : ThreadId → Pc) (t u : ThreadId) (p : Pc) (h : u ≠ t) :
    setPc pc t p u = pc u := by
  simp [setPc, h]

theorem ownerInv_move (s : Sys) (t : ThreadId) (w : World) (tr : List Event) (p : Pc)
    (hinv : OwnerInv s) (hpc : s.pc t ≠ Pc.outside)
    (hw : w.glContext = s.world.glContext) :
    OwnerInv { world := w, trace := tr, pc := setPc s.pc t p } := by
  intro u hu
  show w.glContext.mutex = some u
  rw [hw]
  by_cases hut : u = t
  · subst hut
    exact hinv u hpc
  · replace hu : setPc s.pc t p u ≠ Pc.outside := hu
    rw [setPc_other s.pc t u p hut] at hu
    exact hinv u hu

theorem ownerInv_step (t : ThreadId) (c : Option String) (s : Sys) (hinv : OwnerInv s) :
    OwnerInv (stepThread t c s) := by
  unfold stepThread
  cases hp : s.pc t with
  | outside =>
    simp only
    cases hm : s.world.glContext.mutex with
    | some o =>
      simp only [mutexLock, hm]
      exact hinv
    | none =>
      simp only [mutexLock, hm]
      intro u hu
      by_cases hut : u = t
      · subst hut
        rfl
      · replace hu : setPc s.pc t Pc.locked u ≠ Pc.outside := hu
        rw [setPc_other s.pc t u Pc.locked hut] at hu
        have := hinv u hu
        rw [hm] at this
        exact absurd this (by simp)
  | locked =>
    exact ownerInv_move s t _ _ _ hinv (by rw [hp]; simp) rfl
  | activated =>
    exact ownerInv_move s t _ _ _ hinv (by rw [hp]; simp) (logThread_spec t s.world).2.1
  | guarded =>
    cases c with
    | some name =>
      simp only
      intro u hu
      show (glCall t name s.world).2.glContext.mutex = some u
      rw [(glCall_frame t name s.world).1]
      exact hinv u hu
    | none =>
      exact ownerInv_move s t _ _ _ hinv (by rw [hp]; simp) (by rw [checkGLErrors_eq])
  | drained =>
    exact ownerInv_move s t _ _ _ hinv (by rw [hp]; simp) rfl
  | deactivated =>
    simp only
    intro u hu
    by_cases hut : u = t
    · subst hut
      exact absurd (setPc_same s.pc u Pc.outside) hu
    · replace hu : setPc s.pc t Pc.outside u ≠ Pc.outside := hu
      rw [setPc_other s.pc t u Pc.outside hut] at hu
      have h1 := hinv u hu
      have h2 := hinv t (by rw [hp]; simp)
      rw [h1] at h2
      exact absurd (Option.some.inj h2) hut

theorem ownerInv_run (sched : List (ThreadId × Option String)) (s : Sys)
    (hinv : OwnerInv s) : OwnerInv (runSchedule sched s) := by
  induction sched generalizing s with
  | nil => exact hinv
  | cons a rest ih =>
    obtain ⟨t, c⟩ := a
    exact ih _ (ownerInv_step t c s hinv)

theorem inGuardedSection_ne_outside (p : Pc) (h : inGuardedSection p = true) :
    p ≠ Pc.outside := by
  intro hp
  subst hp
  exact absurd h (by decide)

/-- C1: threads run the guarded block on one `GLContext` whose mutex starts
free, interleaved statement by statement in any order.  In every state
reached, two distinct threads are never both in their guarded sections
(constructor returned, destructor not finished). -/
theorem mutual_exclusion (w : World) (sched : List (ThreadId × Option String))
    (t1 t2 : ThreadId) (hfree : w.glContext.mutex = none) (hne : t1 ≠ t2) :
    ¬ (inGuardedSection ((runSchedule sched (startSys w)).pc t1) = true ∧
       inGuardedSection ((runSchedule sched (startSys w)).pc t2) = true) := by
  intro hboth
  have hinv := ownerInv_run sched (startSys w) (ownerInv_start w)
  have h1 := hinv t1 (inGuardedSection_ne_outside _ hboth.1)
  have h2 := hinv t2 (inGuardedSection_ne_outside _ hboth.2)
  rw [h1] at h2
  exact hne (Option.some.inj h2)

/-- C1 at a schedule where thread 1 enters its guarded section and thread 2
then tries to acquire: thread 1 is in the section, thread 2 is still at its
`lock()`. -/
theorem mutual_exclusion_witness :
    worldFresh.glContext.mutex = none ∧ (1 : ThreadId) ≠ 2 ∧
    (runSchedule scheduleContended (startSys worldFresh)).pc 1 = Pc.guarded ∧
    (runSchedule scheduleContended (startSys worldFresh)).pc 2 = Pc.outside ∧
    ¬ (inGuardedSection ((runSchedule scheduleContended (startSys worldFresh)).pc 1) = true ∧
       inGuardedSection ((runSchedule scheduleContended (startSys worldFresh)).pc 2) = true) :=
  ⟨rfl, by decide, by decide, by decide,
   mutual_exclusion worldFresh scheduleContended 1 2 rfl (by decide)⟩

/-! ## The trace of `main` -/

theorem guardRun_append (W C : Ptr) (p : Phase) (xs ys : List Event) :
    guardRun W C p (xs ++ ys) = (guardRun W C p xs).bind (fun q => guardRun W C q ys) := by
  induction xs generalizing p with
  | nil => rfl
  | cons e es ih =>
    simp only [List.cons_append, guardRun]
    cases guardStep W C p e with
    | none => rfl
    | some p1 => exact ih p1

theorem guardRun_gl (W C : Ptr) (t : ThreadId) (names : List String) :
    guardRun W C (Phase.active t) (names.map (Event.gl t)) = some (Phase.active t) := by
  induction names with
  | nil => rfl
  | cons n ns ih => simp [guardRun, guardStep, ih]

theorem guardRun_drain (W C : Ptr) (t : ThreadId) (q : List GLenum) :
    guardRun W C (Phase.active t) (drainEvents t q) = some (Phase.active t) := by
  induction q with
  | nil => simp [drainEvents, guardRun, guardStep]
  | cons c rest ih =>
    by_cases hc : c = GL_NO_ERROR
    · simp [drainEvents, hc, guardRun, guardStep]
    · cases hs : errorString c <;> simp [drainEvents, hc, hs, guardRun, guardStep, ih]

theorem guardRun_lines (W C : Ptr) (p : Phase) (L : List Event)
    (hL : ∀ e ∈ L, isMakeCurrentLine e = true) : guardRun W C p L = some p := by
  induction L with
  | nil => rfl
  | cons e es ih =>
    have he := hL e (List.mem_cons_self e es)
    have ih1 := ih (fun d hd => hL d (List.mem_cons_of_mem e hd))
    cases e <;> simp [isMakeCurrentLine] at he
    simp [guardRun, guardStep, ih1]

theorem guardRun_poll (W C : Ptr) (p : Phase) (t : ThreadId) (batch : List Nat)
    (quit : Bool) : guardRun W C p (pollEvents t batch quit).1 = some p := by
  induction batch generalizing quit with
  | nil => simp [pollEvents, guardRun, guardStep]
  | cons ty rest ih => simp [pollEvents, guardRun, guardStep, ih]

theorem block_shape (t : ThreadId) (body : World → BodyResult) (ev : List Event)
    (w : World) (h : w.glContext.mutex = none)
    (hev : ∀ w1, (body w1).events = ev)
    (hfr : ∀ w1, (body w1).world.glContext = w1.glContext) :
    ∃ b L q, withGLContextLock t body w = some b ∧
      b.world.glContext = w.glContext ∧
      b.events = Event.lock t ::
        Event.makeCurrent t w.glContext.window w.glContext.context ::
          (L ++ ev ++ drainEvents t q ++ [Event.makeCurrent t 0 0, Event.unlock t]) ∧
      (∀ e ∈ L, isMakeCurrentLine e = true) := by
  have hc := constructor_eq t w h
  have hl := logThread_spec t { w with glContext := { w.glContext with mutex := some t } }
  generalize (logThread t { w with glContext := { w.glContext with mutex := some t } }) = l
    at hc hl
  obtain ⟨_, hl2, hl3⟩ := hl
  refine ⟨_, l.1, (body l.2).world.errorQueue,
    withGLContextLock_of_constructor t body w _ _ hc, ?_, ?_, ?_⟩
  · simp only [destroy_eq, hfr, hl2]
    cases hw : w.glContext
    rw [hw] at h
    simp only at h
    simp [h]
  · simp [destroy_eq, hev]
  · intro e he
    rw [hl3] at he
    by_cases hid : (some t : Option ThreadId) = w.lastThreadID
    · simp [hid] at he
    · simp [hid] at he
      subst he
      rfl

theorem block_guarded (W C : Ptr) (t : ThreadId) (L ev : List Event) (q : List GLenum)
    (hL : ∀ e ∈ L, isMakeCurrentLine e = true)
    (hev : guardRun W C (Phase.active t) ev = some (Phase.active t)) :
    guardRun W C Phase.free
      (Event.lock t :: Event.makeCurrent t W C ::
        (L ++ ev ++ drainEvents t q ++ [Event.makeCurrent t 0 0, Event.unlock t])) =
      some Phase.free := by
  simp [guardRun, guardStep, guardRun_append, guardRun_lines W C _ L hL, hev, guardRun_drain]

theorem glBody_events (t : ThreadId) (calls : List String) (w : World) :
    (glBody t calls w).events = calls.map (Event.gl t) :=
  glCalls_events t calls w

theorem glBody_frame (t : ThreadId) (calls : List String) (w : World) :
    (glBody t calls w).world.glContext = w.glContext :=
  (glCalls_frame t calls w).1

theorem renderBody_events (t : ThreadId) (window : Ptr) (w : World) :
    (renderBody t window w).events =
      renderCalls.map (Event.gl t) ++ [Event.swapWindow t window] := by
  simp [renderBody, glCalls_events]

theorem renderBody_frame (t : ThreadId) (window : Ptr) (w : World) :
    (renderBody t window w).world.glContext = w.glContext :=
  (glCalls_frame t renderCalls w).1

theorem renderFrame_shape (t : ThreadId) (w : World) (h : w.glContext.mutex = none) :
    ∃ b, renderFrame t w.glContext.window w = some b ∧
      b.world.glContext = w.glContext ∧
      guardRun w.glContext.window w.glContext.context Phase.free b.events = some Phase.free ∧
      Event.gl t "glDrawArrays" ∈ b.events := by
  obtain ⟨b, L, q, hb, hg, hev, hL⟩ :=
    block_shape t (renderBody t w.glContext.window) _ w h
      (renderBody_events t w.glContext.window) (renderBody_frame t w.glContext.window)
  refine ⟨b, hb, hg, ?_, ?_⟩
  · rw [hev]
    apply block_guarded _ _ t L _ q hL
    simp [guardRun_append, guardRun_gl, guardRun, guardStep]
  · rw [hev]
    simp [renderCalls]

theorem renderLoop_shape (t : ThreadId) (polls : List (List Nat)) (w : World)
    (h : w.glContext.mutex = none) :
    ∃ r, renderLoop t w.glContext.window polls w = some r ∧
      r.world.glContext = w.glContext ∧
      guardRun w.glContext.window w.glContext.context Phase.free r.trace = some Phase.free ∧
      (polls ≠ [] → Event.gl t "glDrawArrays" ∈ r.trace) := by
  induction polls generalizing w with
  | nil => exact ⟨_, rfl, rfl, rfl, fun hne => absurd rfl hne⟩
  | cons batch more ih =>
    obtain ⟨b, hb, hg, hrun, hdraw⟩ := renderFrame_shape t w h
    obtain ⟨r, hr, hrg, hrrun, _⟩ := ih b.world (by rw [hg]; exact h)
    rw [hg] at hr hrg hrrun
    cases hq : (pollEvents t batch false).2 with
    | true =>
      refine ⟨{ trace := (pollEvents t batch false).1 ++ b.events, exited := true,
                world := b.world }, ?_, hg, ?_, ?_⟩
      · simp [renderLoop, hb, hq]
      · simp [guardRun_append, guardRun_poll, hrun]
      · intro _
        simp [hdraw]
    | false =>
      refine ⟨{ r with trace := (pollEvents t batch false).1 ++ b.events ++ r.trace },
        ?_, hrg, ?_, ?_⟩
      · simp [renderLoop, hb, hq, hr]
      · simp [guardRun_append, guardRun_poll, hrun, hrrun]
      · intro _
        simp [hdraw]

theorem deviceCallsGuarded_rejects :
    deviceCallsGuarded 7 9 [Event.gl 1 "glClear"] = false ∧
    deviceCallsGuarded 7 9
      [Event.lock 1, Event.makeCurrent 1 7 9, Event.makeCurrent 1 0 0,
       Event.getError 1 0, Event.unlock 1] = false ∧
    deviceCallsGuarded 7 9
      [Event.lock 1, Event.makeCurrent 1 7 9, Event.gl 2 "glClear"] = false := by
  decide

theorem teardown_shape (t : ThreadId) (w : World) (h : w.glContext.mutex = none) :
    ∃ b, teardown t w = some b ∧
      guardRun w.glContext.window w.glContext.context Phase.free b.events =
        some Phase.free := by
  obtain ⟨b, L, q, hb, _, hev, hL⟩ :=
    block_shape t (glBody t teardownCalls) _ w h
      (glBody_events t teardownCalls) (glBody_frame t teardownCalls)
  refine ⟨b, hb, ?_⟩
  rw [hev]
  exact block_guarded _ _ t L _ q hL (guardRun_gl _ _ t teardownCalls)

theorem main_shape (env : Env) (polls : List (List Nat)) :
    ∃ r L q rest, main env polls = some r ∧
      r.trace = startupEvents env ++ (createContext env env.createdWindow).1 ++
        [Event.spawn env.mainThread env.initThread] ++
        (Event.lock env.initThread ::
          Event.makeCurrent env.initThread env.createdWindow env.createdContext ::
            (L ++ initializeCalls.map (Event.gl env.initThread) ++
              drainEvents env.initThread q ++
              [Event.makeCurrent env.initThread 0 0, Event.unlock env.initThread])) ++
        [Event.join env.mainThread env.initThread] ++ rest ∧
      (∀ e ∈ L, isMakeCurrentLine e = true) ∧
      guardRun env.createdWindow env.createdContext Phase.free rest = some Phase.free ∧
      (polls ≠ [] → Event.gl env.mainThread "glDrawArrays" ∈ rest) := by
  obtain ⟨i, L, q, hi, hig, hiev, hL⟩ :=
    block_shape env.initThread (glBody env.initThread initializeCalls) _
      { glContext := (createContext env env.createdWindow).2, errorQueue := [],
        lastThreadID := none, device := env.device } rfl
      (glBody_events env.initThread initializeCalls)
      (glBody_frame env.initThread initializeCalls)
  have hmut : i.world.glContext.mutex = none := by rw [hig]; rfl
  have hwin : i.world.glContext.window = env.createdWindow := by rw [hig]; rfl
  have hctx : i.world.glContext.context = env.createdContext := by rw [hig]; rfl
  obtain ⟨r, hr, hrg, hrrun, hrdraw⟩ := renderLoop_shape env.mainThread polls i.world hmut
  rw [hwin] at hr
  rw [hwin, hctx] at hrrun
  have hiev1 : i.events = Event.lock env.initThread ::
      Event.makeCurrent env.initThread env.createdWindow env.createdContext ::
        (L ++ initializeCalls.map (Event.gl env.initThread) ++
          drainEvents env.initThread q ++
          [Event.makeCurrent env.initThread 0 0, Event.unlock env.initThread]) := hiev
  cases hx : r.exited with
  | false =>
    refine ⟨Run.mk (startupEvents env ++ (createContext env env.createdWindow).1 ++
          [Event.spawn env.mainThread env.initThread] ++ i.events ++
          [Event.join env.mainThread env.initThread] ++ r.trace) false r.world,
      L, q, r.trace, ?_, ?_, hL, hrrun, hrdraw⟩
    · simp only [main, initializeGL, hi, hr, hx]
      rfl
    · simp [hiev1]
  | true =>
    obtain ⟨d, hd, hdrun⟩ := teardown_shape env.mainThread r.world
      (by rw [hrg]; exact hmut)
    rw [hrg, hwin, hctx] at hdrun
    refine ⟨Run.mk (startupEvents env ++ (createContext env env.createdWindow).1 ++
          [Event.spawn env.mainThread env.initThread] ++ i.events ++
          [Event.join env.mainThread env.initThread] ++ r.trace ++ d.events ++
          shutdownEvents env) true d.world,
      L, q, r.trace ++ d.events ++ shutdownEvents env, ?_, ?_, hL, ?_, ?_⟩
    · simp only [main, initializeGL, hi, hr, hx, hd]
      rfl
    · simp [hiev1]
    · simp [guardRun_append, hrrun, hdrun, shutdownEvents, guardRun, guardStep]
    · intro hne
      simp [hrdraw hne]

/-- C8 as stated fails: in a run where `SDL_CreateWindow` and
`SDL_GL_CreateContext` both returned null, `main` still runs the guarded
section of the initialization thread and a render-loop iteration. -/
theorem main_proceeds_after_failed_creation :
    envCreationFailed.createdWindow = 0 ∧ envCreationFailed.createdContext = 0 ∧
    ∃ r, main envCreationFailed [[SDL_QUIT]] = some r ∧
      Event.lock 2 ∈ r.trace ∧
      Event.gl 2 "glGenVertexArrays" ∈ r.trace ∧
      Event.gl 1 "glDrawArrays" ∈ r.trace := by
  obtain ⟨r, L, q, rest, hr, htr, _, _, hdraw⟩ := main_shape envCreationFailed [[SDL_QUIT]]
  refine ⟨rfl, rfl, r, hr, ?_, ?_, ?_⟩
  · rw [htr]
    simp [envCreationFailed]
  · rw [htr]
    simp [envCreationFailed, initializeCalls]
  · rw [htr]
    exact List.mem_append_right _ (hdraw (by simp))

/-- C8, amended: `main` does not check what `SDL_CreateWindow` and
`SDL_GL_CreateContext` return.  In every run, whatever the two calls
returned (null included), the initialization thread takes its guard and
makes its OpenGL calls, and the first iteration of the render loop draws. -/
theorem main_ignores_creation_result (env : Env) (batch : List Nat)
    (more : List (List Nat)) :
    ∃ r, main env (batch :: more) = some r ∧
      Event.lock env.initThread ∈ r.trace ∧
      (∀ name ∈ initializeCalls, Event.gl env.initThread name ∈ r.trace) ∧
      Event.gl env.mainThread "glDrawArrays" ∈ r.trace := by
  obtain ⟨r, L, q, rest, hr, htr, _, _, hdraw⟩ := main_shape env (batch :: more)
  refine ⟨r, hr, ?_, ?_, ?_⟩
  · rw [htr]
    simp
  · intro name hname
    rw [htr]
    simp only [List.mem_append, List.mem_cons, List.mem_map]
    exact Or.inl (Or.inl (Or.inr (Or.inr (Or.inr (Or.inl (Or.inl (Or.inr
      ⟨name, hname, rfl⟩)))))))
  · rw [htr]
    exact List.mem_append_right _ (hdraw (by simp))

/-- C9: in every run of `main`, finished or still in the render loop, the
trace is accepted by the guard monitor: every OpenGL call of `initialize`,
of the render loop and of the teardown block, every `SDL_GL_SwapWindow`
and every `glGetError` query is made by the thread that holds the guard,
after the guard's `SDL_GL_MakeCurrent(window, context)` and before its
`SDL_GL_MakeCurrent(nullptr, nullptr)`. -/
theorem main_device_calls_guarded (env : Env) (polls : List (List Nat)) :
    ∃ r, main env polls = some r ∧
      deviceCallsGuarded env.createdWindow env.createdContext r.trace = true := by
  obtain ⟨r, L, q, rest, hr, htr, hL, hrun, _⟩ := main_shape env polls
  refine ⟨r, hr, ?_⟩
  have hblock := block_guarded env.createdWindow env.createdContext env.initThread L
    (initializeCalls.map (Event.gl env.initThread)) q hL
    (guardRun_gl _ _ env.initThread initializeCalls)
  have hstart : guardRun env.createdWindow env.createdContext Phase.free
      (startupEvents env ++ (createContext env env.createdWindow).1 ++
        [Event.spawn env.mainThread env.initThread]) = some Phase.free := by
    simp [startupEvents, createContext, guardRun, guardStep]
  rw [deviceCallsGuarded, htr]
  rw [guardRun_append, guardRun_append, guardRun_append, hstart]
  simp only [Option.some_bind, hblock]
  simp [guardRun, guardStep, hrun]

theorem isQuiet_of_line (e : Event) (h : isMakeCurrentLine e = true) : isQuiet e = true := by
  cases e <;> simp [isMakeCurrentLine] at h
  rfl

theorem isQuiet_of_drain (t : ThreadId) (e : Event) (h : isDrainEvent t e = true) :
    isQuiet e = true := by
  cases e <;> simp [isDrainEvent] at h <;> rfl

theorem isQuiet_initializeCalls (t : ThreadId) :
    ∀ e ∈ initializeCalls.map (Event.gl t), isQuiet e = true := by
  intro e he
  simp only [initializeCalls, List.map_cons, List.map_nil, List.mem_cons,
    List.mem_singleton, List.not_mem_nil, or_false] at he
  rcases he with h | h | h | h | h | h | h | h | h | h | h | h | h | h | h | h | h <;>
    subst h <;> simp [isQuiet, isLockCall, isUnlockCall, isDrawOrTeardownCall]

theorem isQuiet_startup (env : Env) :
    ∀ e ∈ startupEvents env ++ (createContext env env.createdWindow).1 ++
        [Event.spawn env.mainThread env.initThread], isQuiet e = true := by
  intro e he
  simp only [startupEvents, createContext, List.mem_append, List.mem_cons,
    List.mem_singleton, List.not_mem_nil, or_false] at he
  rcases he with ((h | h | h | h | h | h | h) | (h | h | h)) | h <;> subst h <;> rfl

theorem filter_isLockCall_of_quiet (xs : List Event) (h : ∀ e ∈ xs, isQuiet e = true) :
    xs.filter isLockCall = [] := by
  rw [List.filter_eq_nil_iff]
  intro e he
  have := h e he
  simp only [isQuiet, Bool.and_eq_true, Bool.not_eq_true'] at this
  simp [this.1.1]

theorem isQuiet_parts (e : Event) (h : isQuiet e = true) :
    isUnlockCall e = false ∧ isDrawOrTeardownCall e = false := by
  simp only [isQuiet, Bool.and_eq_true, Bool.not_eq_true'] at h
  exact ⟨h.1.2, h.2⟩

/-- C10: in every run of `main`, finished or still in the render loop, the
trace splits at the unlock made by the initialization thread, which
`join` follows at once.  Before that unlock there is exactly one `lock()`,
the one of the initialization guard, no unlock, and no call of the render
loop or of the teardown block; so every guard taken by the render loop and
by the teardown block, and every draw or teardown call, comes after the
initialization guard is released. -/
theorem init_released_before_render (env : Env) (polls : List (List Nat)) :
    ∃ r pre post, main env polls = some r ∧
      r.trace = pre ++ Event.unlock env.initThread ::
        Event.join env.mainThread env.initThread :: post ∧
      pre.filter isLockCall = [Event.lock env.initThread] ∧
      (∀ e ∈ pre, isUnlockCall e = false) ∧
      (∀ e ∈ pre, isDrawOrTeardownCall e = false) := by
  obtain ⟨r, L, q, rest, hr, htr, hL, _, _⟩ := main_shape env polls
  have hS := isQuiet_startup env
  have hQ : ∀ e ∈ Event.makeCurrent env.initThread env.createdWindow env.createdContext ::
      (L ++ initializeCalls.map (Event.gl env.initThread) ++
        drainEvents env.initThread q ++ [Event.makeCurrent env.initThread 0 0]),
      isQuiet e = true := by
    intro e he
    simp only [List.mem_cons, List.mem_append, List.mem_singleton, List.not_mem_nil,
      or_false] at he
    rcases he with h | ((h | h) | h) | h
    · subst h
      rfl
    · exact isQuiet_of_line e (hL e h)
    · exact isQuiet_initializeCalls env.initThread e h
    · exact isQuiet_of_drain env.initThread e (isDrainEvent_drainEvents _ q e h)
    · subst h
      rfl
  have hpre : ∀ e ∈ (startupEvents env ++ (createContext env env.createdWindow).1 ++
      [Event.spawn env.mainThread env.initThread]) ++
      Event.lock env.initThread ::
        Event.makeCurrent env.initThread env.createdWindow env.createdContext ::
          (L ++ initializeCalls.map (Event.gl env.initThread) ++
            drainEvents env.initThread q ++ [Event.makeCurrent env.initThread 0 0]),
      isUnlockCall e = false ∧ isDrawOrTeardownCall e = false := by
    intro e he
    rw [List.mem_append, List.mem_cons] at he
    rcases he with h | h | h
    · exact isQuiet_parts e (hS e h)
    · subst h
      exact ⟨rfl, rfl⟩
    · exact isQuiet_parts e (hQ e h)
  refine ⟨r, _, rest, hr, ?_, ?_, fun e he => (hpre e he).1, fun e he => (hpre e he).2⟩
  · rw [htr]
    simp
  · rw [List.filter_append, List.filter_cons, filter_isLockCall_of_quiet _ hS,
      filter_isLockCall_of_quiet _ hQ]
    rfl

end GLMakeCurrent
